import Mathlib

/-!
Verification development for the `vr-mpp-osc-sender` utility (`src/main.rs`).

The program has three parts that the properties below are about:

* `OscSenderApp::nudge_port` / its port arithmetic: `current as i32 + delta`,
  clamped to `[0, 65534]`, then `next & !1` (clear the low bit), written back
  to the UI mirror `self.port` and the shared `dest_port` only when it changed;
* the engine thread spawned in `OscSenderApp::new`: an unbounded loop that
  snapshots the four shared fields under one mutex acquisition and either
  pulses (`send_click`) or, on the falling edge of `is_sending`, emits one
  final release;
* `send_value`, which builds the fixed `/input/UseRight` OSC message and
  silently discards encode and send failures.

Machine integers are modelled as `Nat`/`Int` with explicit two's-complement
wrapping where the Rust code uses `i32` arithmetic.
-/

namespace OscSender

/-- An OSC message as `send_value` constructs it: an address path and the
  list of integer arguments (the code only ever uses `OscType::Int`). -/
structure OscMessage where
  addr : String
  args : List Int
  deriving DecidableEq

/-- The message `send_value` builds for a given value:
  `OscMessage { addr: "/input/UseRight", args: vec![OscType::Int(value)] }`. -/
def useRightMsg (value : Int) : OscMessage :=
  { addr := "/input/UseRight", args := [value] }

/-- Failure environment for the network: for attempt index `k`, `(env k).1`
  says whether `encoder::encode` succeeds and `(env k).2` whether the
  `socket.send_to` succeeds.  The Rust code discards both outcomes. -/
abbrev SendEnv := Nat → Bool × Bool

/-- The observable record of one `send_value` call: the message it built, the
  destination port (the datagram goes to `127.0.0.1:dest`), and the outcome —
  `none` when `encoder::encode` failed so nothing was sent (`if let Ok(buf)`),
  `some ok` when a send was attempted and had outcome `ok` (`let _ = ...`). -/
structure Attempt where
  msg : OscMessage
  dest : Nat
  send_result : Option Bool
  deriving DecidableEq

/-- Shallow embedding of `send_value`: build the fixed `/input/UseRight`
  message with the single integer argument; on encode success attempt the
  send and discard its result; on encode failure send nothing.  The Rust
  function returns `()` — there is no error to propagate. -/
def send_value (env : SendEnv) (k : Nat) (port : Nat) (value : Int) : Attempt :=
  if (env k).1 then
    { msg := useRightMsg value, dest := port, send_result := some (env k).2 }
  else
    { msg := useRightMsg value, dest := port, send_result := none }

/-- One observable action of the engine thread: a `send_value` call or a
  `thread::sleep(Duration::from_millis ms)`. -/
inductive Event where
  | sent (a : Attempt)
  | slept (ms : Nat)
  deriving DecidableEq

/-- Shallow embedding of `send_click`: value 1, sleep `hold_ms.max(1)`,
  value 0.  It performs two send attempts, consuming indices `k` and `k+1`. -/
def send_click (env : SendEnv) (k : Nat) (port : Nat) (hold_ms : Nat) : List Event :=
  [.sent (send_value env k port 1),
   .slept (max hold_ms 1),
   .sent (send_value env (k + 1) port 0)]

/-- `AppState`: the shared configuration record guarded by one `Mutex`. -/
structure AppState where
  interval_ms : Nat
  hold_ms : Nat
  is_sending : Bool
  dest_port : Nat
  deriving DecidableEq

/-- The defaults installed by `OscSenderApp::new`:
  `AppState { interval_ms: 1000, hold_ms: 80, is_sending: false, dest_port: 9000 }`. -/
def initialAppState : AppState :=
  { interval_ms := 1000, hold_ms := 80, is_sending := false, dest_port := 9000 }

/-- The 4-tuple `(interval, hold, sending, port)` the engine loop copies out
  of the shared state inside a single lock acquisition. -/
structure Snapshot where
  interval : Nat
  hold : Nat
  sending : Bool
  port : Nat
  deriving DecidableEq

/-- `read_snapshot`: copy all four fields inside one critical section. -/
def read_snapshot (s : AppState) : Snapshot :=
  ⟨s.interval_ms, s.hold_ms, s.is_sending, s.dest_port⟩

/-- A single-field write to the shared configuration: what one UI event
  (slider change, checkbox toggle, or `nudge_port`) does under the lock. -/
inductive FieldWrite where
  | interval (v : Nat)
  | hold (v : Nat)
  | sending (v : Bool)
  | port (v : Nat)
  deriving DecidableEq

/-- Apply a single-field write to the shared record (one atomic critical
  section, the other three fields untouched). -/
def write_field (s : AppState) : FieldWrite → AppState
  | .interval v => { s with interval_ms := v }
  | .hold v => { s with hold_ms := v }
  | .sending v => { s with is_sending := v }
  | .port v => { s with dest_port := v }

/-- The snapshot the engine obtains when one `write_field` races its
  `read_snapshot`: both run inside the same mutex, so the only schedules are
  write-before-read and read-before-write. -/
def racingSnapshot (s : AppState) (w : FieldWrite) (writeFirst : Bool) : Snapshot :=
  if writeFirst then read_snapshot (write_field s w) else read_snapshot s

/-- The fields of two snapshots other than the one a given write touches
  agree. -/
def sameExcept : FieldWrite → Snapshot → Snapshot → Prop
  | .interval _, a, b => a.hold = b.hold ∧ a.sending = b.sending ∧ a.port = b.port
  | .hold _, a, b => a.interval = b.interval ∧ a.sending = b.sending ∧ a.port = b.port
  | .sending _, a, b => a.interval = b.interval ∧ a.hold = b.hold ∧ a.port = b.port
  | .port _, a, b => a.interval = b.interval ∧ a.hold = b.hold ∧ a.sending = b.sending

/-- One iteration of the engine loop body, given the snapshot already taken.
  Returns the next attempt index, the next value of `prev_sending`, and the
  iteration's events in order.  Mirrors the loop in `OscSenderApp::new`:
  if sending, `send_click` then `prev_sending = true` then sleep
  `interval.saturating_sub(hold).max(1)` and `continue`; otherwise emit one
  release if `prev_sending`, set `prev_sending = sending`, and sleep
  `interval.max(1)`. -/
def engineStep (env : SendEnv) (k : Nat) (prev_sending : Bool) (s : Snapshot) :
    Nat × Bool × List Event :=
  if s.sending then
    (k + 2, true,
      send_click env k s.port s.hold ++ [.slept (max (s.interval - s.hold) 1)])
  else if prev_sending then
    (k + 1, s.sending,
      [.sent (send_value env k s.port 0), .slept (max s.interval 1)])
  else
    (k, s.sending, [.slept (max s.interval 1)])

/-- Run the engine loop over a list of per-iteration snapshots, carrying the
  attempt index and `prev_sending` across iterations. -/
def engineRun (env : SendEnv) : Nat → Bool → List Snapshot → Nat × Bool × List Event
  | k, prev, [] => (k, prev, [])
  | k, prev, s :: ss =>
    let r := engineStep env k prev s
    let t := engineRun env r.1 r.2.1 ss
    (t.1, t.2.1, r.2.2 ++ t.2.2)

/-- The event trace of a run. -/
def engineTrace (env : SendEnv) (k : Nat) (prev : Bool) (ss : List Snapshot) : List Event :=
  (engineRun env k prev ss).2.2

/-- The send attempts of a trace, as (destination port, message) pairs. -/
def sends : List Event → List (Nat × OscMessage)
  | [] => []
  | .sent a :: es => (a.dest, a.msg) :: sends es
  | .slept _ :: es => sends es

/-- The shape of an event with the (discarded) network outcome erased. -/
def eraseOutcome : Event → Nat ⊕ (Nat × OscMessage)
  | .slept ms => Sum.inl ms
  | .sent a => Sum.inr (a.dest, a.msg)

/-- Two's-complement wrap of an integer into the `i32` range: the release-mode
  semantics of `i32` addition overflow in `nudge_port`. -/
def wrap32 (x : Int) : Int := (x + 2147483648) % 4294967296 - 2147483648

/-- Shallow embedding of the port computation in `OscSenderApp::nudge_port`:
  `let mut next = current as i32 + delta` (an `i32` addition, hence the wrap),
  `if next < 0 { next = 0 }`, `if next > 65534 { next = 65534 }`, then
  `(next & !1) as u16` — a bitwise AND with `!1 = 0xFFFFFFFE`, clearing the
  low bit. -/
def nudge (current : Nat) (delta : Int) : Nat :=
  let next : Int := wrap32 ((current : Int) + delta)
  let next : Int := if next < 0 then 0 else next
  let next : Int := if next > 65534 then 65534 else next
  next.toNat &&& 4294967294

/-- The port computation as the specification words it: the exact (unwrapped)
  sum `current + delta`, clamped to `[0, 65534]`, then rounded down to the
  nearest even value.  Stated separately so it can be compared with `nudge`,
  the translation of the source. -/
def nudge_spec (current : Nat) (delta : Int) : Nat :=
  2 * ((if (current : Int) + delta < 0 then 0
        else if (current : Int) + delta > 65534 then 65534
        else (current : Int) + delta).toNat / 2)

/-- The UI-side state relevant to the destination port: the locally mirrored
  `self.port` and the shared `AppState`. -/
structure UiPortState where
  port : Nat
  shared : AppState
  deriving DecidableEq

/-- The port state as `OscSenderApp::new` leaves it: the mirror `port: 9000`
  and the shared record with `dest_port: 9000`. -/
def initialUiPort : UiPortState :=
  { port := 9000, shared := initialAppState }

/-- Shallow embedding of `OscSenderApp::nudge_port`'s effect: compute the
  snapped port; if it differs from the mirror, update the mirror and write it
  to the shared `dest_port`; otherwise touch nothing. -/
def nudge_port (st : UiPortState) (delta : Int) : UiPortState :=
  let snapped := nudge st.port delta
  if snapped ≠ st.port then
    { port := snapped, shared := { st.shared with dest_port := snapped } }
  else st

/-- Startup outcome of the spawned engine thread: either the UDP socket bound
  and the loop runs for the process lifetime, or the
  `.expect("Failed to bind UDP socket")` panicked — which unwinds that thread
  alone. -/
inductive EngineThread where
  | running
  | panicked
  deriving DecidableEq

/-- The engine thread body begins with `UdpSocket::bind("0.0.0.0:0").expect(..)`:
  bind failure panics inside the spawned closure. -/
def engineThread (bind_ok : Bool) : EngineThread :=
  if bind_ok then .running else .panicked

/-- The UI fields of `OscSenderApp` as `new` returns them. -/
structure OscSenderApp where
  interval_ms : Nat
  hold_ms : Nat
  checked : Bool
  port : Nat
  deriving DecidableEq

/-- Shallow embedding of `OscSenderApp::new`: it spawns the engine thread
  (whose startup outcome depends on the bind) and then unconditionally
  constructs and returns the app — `thread::spawn` returns immediately, so
  `new` completes whether or not the bind inside the closure succeeds. -/
def OscSenderApp.new (bind_ok : Bool) : EngineThread × OscSenderApp :=
  (engineThread bind_ok,
   { interval_ms := 1000, hold_ms := 80, checked := false, port := 9000 })

/-! ### Helper lemmas -/

theorem engineRun_cons_fst (env : SendEnv) (k : Nat) (prev : Bool) (s : Snapshot)
    (ss : List Snapshot) :
    (engineRun env k prev (s :: ss)).1 =
      (engineRun env (engineStep env k prev s).1 (engineStep env k prev s).2.1 ss).1 := rfl

theorem engineRun_cons_prev (env : SendEnv) (k : Nat) (prev : Bool) (s : Snapshot)
    (ss : List Snapshot) :
    (engineRun env k prev (s :: ss)).2.1 =
      (engineRun env (engineStep env k prev s).1 (engineStep env k prev s).2.1 ss).2.1 := rfl

theorem engineTrace_nil (env : SendEnv) (k : Nat) (prev : Bool) :
    engineTrace env k prev [] = [] := rfl

theorem engineTrace_cons (env : SendEnv) (k : Nat) (prev : Bool) (s : Snapshot)
    (ss : List Snapshot) :
    engineTrace env k prev (s :: ss) =
      (engineStep env k prev s).2.2 ++
        engineTrace env (engineStep env k prev s).1 (engineStep env k prev s).2.1 ss := rfl

@[simp] theorem send_value_msg (env : SendEnv) (k : Nat) (port : Nat) (value : Int) :
    (send_value env k port value).msg = useRightMsg value := by
  unfold send_value; split <;> rfl

@[simp] theorem send_value_dest (env : SendEnv) (k : Nat) (port : Nat) (value : Int) :
    (send_value env k port value).dest = port := by
  unfold send_value; split <;> rfl

@[simp] theorem eraseOutcome_sent (a : Attempt) :
    eraseOutcome (.sent a) = Sum.inr (a.dest, a.msg) := rfl

@[simp] theorem eraseOutcome_slept (ms : Nat) :
    eraseOutcome (.slept ms) = Sum.inl ms := rfl

theorem sends_append (es fs : List Event) : sends (es ++ fs) = sends es ++ sends fs := by
  induction es with
  | nil => rfl
  | cons e es ih => cases e <;> simp [sends, ih]

/-- An idle run: while every snapshot has `sending = false` and
  `prev_sending` is already `false`, the engine only sleeps. -/
theorem sends_trace_of_quiet (env : SendEnv) (k : Nat) (ss : List Snapshot)
    (h : ∀ s ∈ ss, s.sending = false) :
    sends (engineTrace env k false ss) = [] := by
  induction ss generalizing k with
  | nil => rfl
  | cons s ss ih =>
    have hs : s.sending = false := h s (by simp)
    rw [engineTrace_cons, sends_append]
    have hstep : engineStep env k false s = (k, false, [.slept (max s.interval 1)]) := by
      simp [engineStep, hs]
    rw [hstep]
    simpa [sends] using ih k (fun s1 hs1 => h s1 (by simp [hs1]))

/-- The send attempts of a single iteration, by case on the branch taken. -/
theorem sends_step (env : SendEnv) (k : Nat) (prev : Bool) (s : Snapshot) :
    sends (engineStep env k prev s).2.2 =
      if s.sending then [(s.port, useRightMsg 1), (s.port, useRightMsg 0)]
      else if prev then [(s.port, useRightMsg 0)] else [] := by
  unfold engineStep send_click
  split_ifs <;> simp [sends]

/-- Clearing the low bit with the mask `!1 = 0xFFFFFFFE` is rounding down to
  the nearest even number, for anything that fits in 32 bits. -/
theorem land_mask (n : Nat) (h : n < 4294967296) : n &&& 4294967294 = 2 * (n / 2) := by
  apply Nat.eq_of_testBit_eq
  intro i
  match i with
  | 0 => simp [Nat.testBit_land, Nat.mul_mod_right]
  | i + 1 =>
    have hm : Nat.testBit 4294967294 (i + 1) = decide (i < 31) := by
      rw [Nat.testBit_add_one]
      have h2 : (4294967294 : Nat) / 2 = 2 ^ 31 - 1 := by norm_num
      rw [h2, Nat.testBit_two_pow_sub_one]
    have hr : Nat.testBit (2 * (n / 2)) (i + 1) = Nat.testBit n (i + 1) := by
      rw [Nat.testBit_add_one]
      have h3 : 2 * (n / 2) / 2 = n / 2 := by omega
      rw [h3, Nat.testBit_div_two]
    rw [Nat.testBit_land, hm, hr]
    by_cases hi : i < 31
    · simp [hi]
    · have hlt : n < 2 ^ (i + 1) := by
        calc n < 4294967296 := h
        _ = 2 ^ 32 := by norm_num
        _ ≤ 2 ^ (i + 1) := Nat.pow_le_pow_right (by norm_num) (by omega)
      simp [hi, Nat.testBit_lt_two_pow hlt]

/-- `i32` wrapping is the identity on sums that stay inside the `i32` range. -/
theorem wrap32_eq_self (x : Int) (h1 : -2147483648 ≤ x) (h2 : x < 2147483648) :
    wrap32 x = x := by
  unfold wrap32
  rw [Int.emod_eq_of_lt (by omega) (by omega)]
  omega

/-- What `nudge` computes, abstractly: twice half of some number that is at
  most 65534. -/
theorem nudge_val (current : Nat) (delta : Int) :
    ∃ m : Nat, m ≤ 65534 ∧ nudge current delta = 2 * (m / 2) := by
  refine ⟨(if (if wrap32 ((current : Int) + delta) < 0 then (0 : Int)
             else wrap32 ((current : Int) + delta)) > 65534 then (65534 : Int)
           else if wrap32 ((current : Int) + delta) < 0 then 0
           else wrap32 ((current : Int) + delta)).toNat, ?_, ?_⟩
  · split_ifs <;> omega
  · exact land_mask _ (by split_ifs <;> omega)

/-! ### Claim theorems -/

/-- C2 (amended): for every `current_port` in `[0, 65534]` and every `i32`
  `delta`, `nudge` returns an even value in `[0, 65534]`; whenever the exact
  sum `current_port + delta` fits in the `i32` range (no overflow), the result
  is that sum clamped to `[0, 65534]` and rounded down to the nearest even
  value; and `nudge 0 (-100) = 0`, `nudge 65534 100 = 65534`. -/
theorem nudge_arith (current : Nat) (delta : Int) (_hc : current ≤ 65534) :
    Even (nudge current delta) ∧ nudge current delta ≤ 65534 ∧
      (-2147483648 ≤ (current : Int) + delta →
        (current : Int) + delta ≤ 2147483647 →
        nudge current delta = nudge_spec current delta) ∧
      nudge 0 (-100) = 0 ∧ nudge 65534 100 = 65534 := by
  obtain ⟨m, hm, hv⟩ := nudge_val current delta
  refine ⟨⟨m / 2, by omega⟩, by omega, ?_, by decide, by decide⟩
  intro hlo hhi
  have hw : wrap32 ((current : Int) + delta) = (current : Int) + delta :=
    wrap32_eq_self _ (by omega) (by omega)
  show (if (if wrap32 ((current : Int) + delta) < 0 then (0 : Int)
           else wrap32 ((current : Int) + delta)) > 65534 then (65534 : Int)
        else if wrap32 ((current : Int) + delta) < 0 then 0
        else wrap32 ((current : Int) + delta)).toNat &&& 4294967294
      = nudge_spec current delta
  rw [hw]
  unfold nudge_spec
  have hchain :
      (if (if (current : Int) + delta < 0 then (0 : Int)
           else (current : Int) + delta) > 65534 then (65534 : Int)
       else if (current : Int) + delta < 0 then 0
       else (current : Int) + delta)
        = (if (current : Int) + delta < 0 then (0 : Int)
           else if (current : Int) + delta > 65534 then 65534
           else (current : Int) + delta) := by
    split_ifs <;> omega
  rw [hchain]
  exact land_mask _ (by split_ifs <;> omega)

theorem nudge_arith_witness :
    Even (nudge 9000 2) ∧ nudge 9000 2 ≤ 65534 ∧
      (-2147483648 ≤ ((9000 : Nat) : Int) + 2 →
        ((9000 : Nat) : Int) + 2 ≤ 2147483647 →
        nudge 9000 2 = nudge_spec 9000 2) ∧
      nudge 0 (-100) = 0 ∧ nudge 65534 100 = 65534 :=
  nudge_arith 9000 2 (by decide)

/-- C2 counterexample: with `current_port = 65534` and the valid `i32`
  `delta = 2147483647`, the `i32` sum wraps to a negative value, so the code
  clamps to 0 — not to 65534, the clamp of the exact sum that the claim
  describes.  The claim as stated (result = clamped-and-evened exact sum for
  every delta) is therefore false. -/
theorem nudge_overflow_counterexample :
    nudge 65534 2147483647 = 0 ∧ nudge_spec 65534 2147483647 = 65534 ∧
      nudge 65534 2147483647 ≠ nudge_spec 65534 2147483647 := by decide

/-- C8: if the clamped-and-evened value computed by `nudge` equals the current
  mirrored port, `nudge_port` is a no-op: the mirror and the whole shared
  record (in particular `dest_port`) are left exactly as they were. -/
theorem nudge_port_no_write_on_equal (st : UiPortState) (delta : Int)
    (h : nudge st.port delta = st.port) :
    nudge_port st delta = st := by
  simp [nudge_port, h]

theorem nudge_port_no_write_on_equal_witness :
    nudge initialUiPort.port 0 = initialUiPort.port ∧
      nudge_port initialUiPort 0 = initialUiPort :=
  ⟨by decide, nudge_port_no_write_on_equal initialUiPort 0 (by decide)⟩

/-- C10: the UI mirror `port` and the shared `dest_port` start out equal
  (both 9000), and `nudge_port` preserves their equality: when the computed
  value differs it writes the same value to both, and when it is equal it
  writes neither, so the two can never diverge through `nudge_port`. -/
theorem port_mirror_invariant :
    initialUiPort.port = initialUiPort.shared.dest_port ∧
      ∀ (st : UiPortState) (delta : Int), st.port = st.shared.dest_port →
        (nudge_port st delta).port = (nudge_port st delta).shared.dest_port := by
  refine ⟨rfl, ?_⟩
  intro st delta h
  simp only [nudge_port]
  split_ifs
  · rfl
  · exact h

theorem port_mirror_invariant_witness :
    (nudge_port initialUiPort 2).port = (nudge_port initialUiPort 2).shared.dest_port :=
  port_mirror_invariant.2 initialUiPort 2 rfl

/-- C6: a UDP bind failure at startup panics only the spawned engine thread —
  `OscSenderApp::new` still completes and returns the fully-built app (so the
  process keeps running its UI with no working sender), the engine thread
  being the sole casualty.  Evaluates the model at the failing input
  `bind_ok = false`, with the successful case alongside for contrast. -/
theorem bind_failure_kills_engine_thread_only :
    OscSenderApp.new false =
      (EngineThread.panicked,
       { interval_ms := 1000, hold_ms := 80, checked := false, port := 9000 }) ∧
      OscSenderApp.new true =
        (EngineThread.running,
         { interval_ms := 1000, hold_ms := 80, checked := false, port := 9000 }) :=
  ⟨rfl, rfl⟩

/-- C1: on a falling edge of the enabled flag — the engine carries
  `prev_sending = true` out of an enabled iteration and the next snapshot has
  `sending = false` — the whole remaining run emits exactly one packet, the
  release (value 0) to the snapshot's port, provided `enabled` stays false:
  never zero packets, never more than one, and every later all-disabled
  iteration emits nothing at all. -/
theorem release_on_disable (env : SendEnv) (k : Nat) (s : Snapshot) (ss : List Snapshot)
    (hs : s.sending = false) (hss : ∀ s1 ∈ ss, s1.sending = false) :
    sends (engineTrace env k true (s :: ss)) = [(s.port, useRightMsg 0)] := by
  rw [engineTrace_cons]
  have hstep : engineStep env k true s =
      (k + 1, false, [.sent (send_value env k s.port 0), .slept (max s.interval 1)]) := by
    simp [engineStep, hs]
  rw [hstep, sends_append, sends_trace_of_quiet env (k + 1) ss hss]
  simp [sends]

theorem release_on_disable_witness :
    sends (engineTrace (fun _ => (true, true)) 0 true
        [⟨1000, 80, false, 9000⟩, ⟨1000, 80, false, 9000⟩]) = [(9000, useRightMsg 0)] :=
  release_on_disable (fun _ => (true, true)) 0 ⟨1000, 80, false, 9000⟩
    [⟨1000, 80, false, 9000⟩] rfl (by decide)

/-- C3: every sleep the engine ever performs — the hold sleep
  `hold.max(1)` inside `send_click`, the inter-pulse rest
  `interval.saturating_sub(hold).max(1)`, and the idle sleep
  `interval.max(1)` — lasts at least 1 millisecond, for all `interval_ms` and
  `hold_ms` including 0 and `hold_ms ≥ interval_ms`: the loop never
  busy-waits. -/
theorem engine_sleeps_positive (env : SendEnv) (k : Nat) (prev : Bool)
    (ss : List Snapshot) (ms : Nat)
    (h : Event.slept ms ∈ engineTrace env k prev ss) : 1 ≤ ms := by
  induction ss generalizing k prev with
  | nil => simp [engineTrace_nil] at h
  | cons s ss ih =>
    rw [engineTrace_cons, List.mem_append] at h
    rcases h with h | h
    · unfold engineStep send_click at h
      split_ifs at h <;> simp at h <;>
        first
          | (rcases h with h | h <;> rw [h] <;> exact Nat.le_max_right _ 1)
          | (rw [h]; exact Nat.le_max_right _ 1)
    · exact ih _ _ h

theorem engine_sleeps_positive_witness :
    Event.slept 1000 ∈ engineTrace (fun _ => (true, true)) 0 false [⟨1000, 80, false, 9000⟩]
      ∧ (1 : Nat) ≤ 1000 :=
  ⟨by decide,
   engine_sleeps_positive (fun _ => (true, true)) 0 false [⟨1000, 80, false, 9000⟩] 1000
     (by decide)⟩

/-- C4: an iteration whose snapshot has `sending = true` performs exactly this
  sequence: emit value 1 to the snapshot's port, sleep `max hold 1`, emit
  value 0 to the same port, record `prev_sending = true`, sleep
  `max (interval - hold) 1`, and restart the loop (`continue`), skipping the
  idle-branch bookkeeping — exactly two packets, a 1 then a 0, per enabled
  iteration. -/
theorem sending_iteration (env : SendEnv) (k : Nat) (prev : Bool) (s : Snapshot)
    (h : s.sending = true) :
    engineStep env k prev s =
      (k + 2, true,
        [.sent (send_value env k s.port 1),
         .slept (max s.hold 1),
         .sent (send_value env (k + 1) s.port 0),
         .slept (max (s.interval - s.hold) 1)]) := by
  simp [engineStep, send_click, h]

theorem sending_iteration_witness :
    engineStep (fun _ => (true, true)) 0 false ⟨1000, 80, true, 9000⟩ =
      (0 + 2, true,
        [.sent (send_value (fun _ => (true, true)) 0 9000 1),
         .slept (max 80 1),
         .sent (send_value (fun _ => (true, true)) (0 + 1) 9000 0),
         .slept (max (1000 - 80) 1)]) :=
  sending_iteration (fun _ => (true, true)) 0 false ⟨1000, 80, true, 9000⟩ rfl

/-- C5: every packet any engine run ever attempts to send is a single OSC
  message with address path `/input/UseRight` carrying exactly one integer
  argument, whose value is either 1 (press) or 0 (release) — no code path
  emits any other address, argument count, or value. -/
theorem engine_packet_shape (env : SendEnv) (k : Nat) (prev : Bool)
    (ss : List Snapshot) (p : Nat) (m : OscMessage)
    (h : (p, m) ∈ sends (engineTrace env k prev ss)) :
    m.addr = "/input/UseRight" ∧ (m.args = [1] ∨ m.args = [0]) := by
  induction ss generalizing k prev with
  | nil => simp [engineTrace_nil, sends] at h
  | cons s ss ih =>
    rw [engineTrace_cons, sends_append, List.mem_append] at h
    rcases h with h | h
    · rw [sends_step] at h
      split_ifs at h <;> simp at h <;>
        first
          | (rcases h with ⟨hp, hm⟩ | ⟨hp, hm⟩ <;> rw [hm] <;> simp [useRightMsg])
          | (rcases h with ⟨hp, hm⟩ ; rw [hm] ; simp [useRightMsg])
    · exact ih _ _ h

theorem engine_packet_shape_witness :
    (9000, useRightMsg 1) ∈
        sends (engineTrace (fun _ => (true, true)) 0 false [⟨1000, 80, true, 9000⟩])
      ∧ (useRightMsg 1).addr = "/input/UseRight"
      ∧ ((useRightMsg 1).args = [1] ∨ (useRightMsg 1).args = [0]) :=
  ⟨by decide,
   engine_packet_shape (fun _ => (true, true)) 0 false [⟨1000, 80, true, 9000⟩] 9000
     (useRightMsg 1) (by decide)⟩

/-- Per-iteration form of C7: the attempt counter, the next `prev_sending`,
  and the outcome-erased events of a step do not depend on the failure
  environment. -/
theorem step_erased (env1 env2 : SendEnv) (k : Nat) (prev : Bool) (s : Snapshot) :
    (engineStep env1 k prev s).1 = (engineStep env2 k prev s).1 ∧
      (engineStep env1 k prev s).2.1 = (engineStep env2 k prev s).2.1 ∧
      ((engineStep env1 k prev s).2.2).map eraseOutcome =
        ((engineStep env2 k prev s).2.2).map eraseOutcome := by
  unfold engineStep send_click
  split_ifs <;> simp

/-- C7: encode and send failures are invisible to the engine: over any run,
  the attempt counter (one slot per attempt — no retries), the carried
  `prev_sending` state, and the entire outcome-erased event trace (every
  message, destination, and sleep, in order) are identical for any two failure
  environments; the run is total, so the loop never terminates due to a send
  failure, and no failure causes any state change beyond normal progression. -/
theorem send_failures_invisible (env1 env2 : SendEnv) (k : Nat) (prev : Bool)
    (ss : List Snapshot) :
    (engineRun env1 k prev ss).1 = (engineRun env2 k prev ss).1 ∧
      (engineRun env1 k prev ss).2.1 = (engineRun env2 k prev ss).2.1 ∧
      (engineTrace env1 k prev ss).map eraseOutcome =
        (engineTrace env2 k prev ss).map eraseOutcome := by
  induction ss generalizing k prev with
  | nil => exact ⟨rfl, rfl, rfl⟩
  | cons s ss ih =>
    obtain ⟨h1, h2, h3⟩ := step_erased env1 env2 k prev s
    obtain ⟨ih1, ih2, ih3⟩ :=
      ih (engineStep env2 k prev s).1 (engineStep env2 k prev s).2.1
    refine ⟨?_, ?_, ?_⟩
    · rw [engineRun_cons_fst, engineRun_cons_fst, h1, h2]; exact ih1
    · rw [engineRun_cons_prev, engineRun_cons_prev, h1, h2]; exact ih2
    · rw [engineTrace_cons, engineTrace_cons, List.map_append, List.map_append,
        h3, h1, h2, ih3]

/-- C9: the engine's per-iteration snapshot is internally consistent and
  fresh.  First: a `read_snapshot` racing a single `write_field` under the one
  mutex yields either the fully-old or the fully-new record, and in both cases
  the three fields the write does not touch are exactly the old ones — no
  mixing.  Second: the loop consumes one fresh snapshot per iteration: the
  trace on `snap :: ss` is the step on `snap` followed by the run on `ss` from
  the updated state, so an iteration's behaviour depends only on its own
  snapshot and the carried `prev_sending`. -/
theorem snapshot_consistency (s : AppState) (w : FieldWrite) (writeFirst : Bool)
    (env : SendEnv) (k : Nat) (prev : Bool) (snap : Snapshot) (ss : List Snapshot) :
    (racingSnapshot s w writeFirst = read_snapshot s ∨
      racingSnapshot s w writeFirst = read_snapshot (write_field s w)) ∧
      sameExcept w (racingSnapshot s w writeFirst) (read_snapshot s) ∧
      engineTrace env k prev (snap :: ss) =
        (engineStep env k prev snap).2.2 ++
          engineTrace env (engineStep env k prev snap).1
            (engineStep env k prev snap).2.1 ss := by
  refine ⟨?_, ?_, engineTrace_cons env k prev snap ss⟩
  · unfold racingSnapshot
    split_ifs
    · exact Or.inr rfl
    · exact Or.inl rfl
  · unfold racingSnapshot
    cases w <;> cases writeFirst <;>
      simp [sameExcept, read_snapshot, write_field]

end OscSender
